import Mathlib

/-!
# Verification of the flockfinder boundary-resolution and search/filter pipeline

Shallow embedding of the core functions of `src/flockfinder/osm_boundaries.py`
and `src/flockfinder/wigle_api.py`:

* `calculate_bounding_box` and `validate_bounding_box` (osm_boundaries.py),
* `filter_by_bssid_prefixes`, `search_multiple_ssids` and its BSSID
  deduplication (wigle_api.py),
* the 24-hour soft-TTL cache check shared by `get_available_countries` and
  `get_admin_divisions` (osm_boundaries.py),
* the element-processing loop of `get_admin_divisions` that derives division
  codes (osm_boundaries.py),
* the HTTP-429 retry control flow of `query_overpass` and
  `make_wigle_request`.

Python dictionaries with a fixed key set become structures with `Option`
fields (a missing key is `none`); Python floats become rationals (the code
performs no float arithmetic beyond comparison, `min` and `max`, which are
exact); remote calls become functions of the value the remote side would
return.  All definitions follow the non-debug run (`DEBUG_MODE = False`,
the default in `config.py`): `debug_print` calls are no-ops and the
debug-only early `break` in `extract_coordinates_from_geometry` is inactive.

String primitives are defined on the underlying character lists
(`String.data`) so that every definition evaluates by `decide`/`rfl`; they
agree with Python's `str.upper`, slicing, `startswith` and `replace` on the
ASCII data (BSSIDs, ISO codes, tag values) these functions process.
-/

namespace FlockFinder

/-! ## String primitives (Python `str` operations on character lists) -/

/-- Python `s.upper()`, character-wise (ASCII case mapping, which is how the
uppercasing behaves on the colon-hex BSSID alphabet). -/
def pyUpper (s : String) : String :=
  ⟨s.data.map Char.toUpper⟩

/-- Python `s[:n]` (slice of the first `n` characters). -/
def pyTake (s : String) (n : Nat) : String :=
  ⟨s.data.take n⟩

/-- Python `len(s)` (number of characters). -/
def pyLen (s : String) : Nat :=
  s.data.length

/-- Python `s.startswith(p)`. -/
def pyStartsWith (s p : String) : Bool :=
  p.data.isPrefixOf s.data

/-- Replace every (non-overlapping, left-to-right) occurrence of `pattern`
in the list; the recursion behind `pyReplace`.  The `fuel` argument makes
the recursion structural (each occurrence consumes at least one character,
so `fuel = length` always suffices); when the fuel runs out the remaining
characters are returned unchanged, which never happens for the fuel
`pyReplace` supplies. -/
def replaceAll (pattern replacement : List Char) : Nat → List Char → List Char
  | _, [] => []
  | 0, l => l
  | fuel + 1, c :: cs =>
    if pattern ≠ [] ∧ pattern.isPrefixOf (c :: cs) then
      replacement ++
        replaceAll pattern replacement fuel (List.drop pattern.length (c :: cs))
    else
      c :: replaceAll pattern replacement fuel cs

/-- Python `s.replace(pattern, replacement)` for a non-empty `pattern`
(the source only calls it with the literal `'US-'`). -/
def pyReplace (s pattern replacement : String) : String :=
  ⟨replaceAll pattern.data replacement.data s.data.length s.data⟩

/-- Python truthiness-based `a or b` where `a` is a dictionary lookup that
may be missing (`None`) or an empty string — both falsy. -/
def truthyOr (a : Option String) (b : String) : String :=
  match a with
  | some s => if s = "" then b else s
  | none => b

/-! ## Bounding boxes (osm_boundaries.py) -/

/-- The bounding-box dictionary produced by `calculate_bounding_box` and
consumed by `validate_bounding_box`: a Python dict that may or may not
carry each of the four keys `north`, `south`, `east`, `west`. -/
structure BBoxDict where
  north : Option ℚ
  south : Option ℚ
  east : Option ℚ
  west : Option ℚ
deriving DecidableEq

/-- `calculate_bounding_box` (osm_boundaries.py, lines 372–399): `None` on an
empty coordinate list, otherwise the dict of `min`/`max` of the longitudes
(first components) and latitudes (second components).  `List.min?`/`List.max?`
are exactly Python's `min`/`max` on a list: a `foldl` over the tail from the
head, undefined on the empty list (which is unreachable here thanks to the
`if not coordinates` guard). -/
def calculate_bounding_box (coordinates : List (ℚ × ℚ)) : Option BBoxDict :=
  match coordinates with
  | [] => none
  | _ :: _ =>
    let lons := coordinates.map Prod.fst
    let lats := coordinates.map Prod.snd
    some { north := lats.max?, south := lats.min?, east := lons.max?, west := lons.min? }

/-- `validate_bounding_box` (osm_boundaries.py, lines 431–467): requires all
four keys, then rejects `north ≤ south`, `east ≤ west`, latitudes outside
`[-90, 90]` and longitudes outside `[-180, 180]`, in that order. -/
def validate_bounding_box (bbox : BBoxDict) : Bool :=
  match bbox.north, bbox.south, bbox.east, bbox.west with
  | some n, some s, some e, some w =>
    if n ≤ s then false
    else if e ≤ w then false
    else if 90 < n ∨ s < -90 then false
    else if 180 < e ∨ w < -180 then false
    else true
  | _, _, _, _ => false

/-! ## WiGLE network records, prefix filtering and deduplication (wigle_api.py) -/

/-- A WiGLE network record, restricted to the fields the verified operations
inspect: `netid` (the BSSID) and `ssid`.  Both are dictionary lookups that
may be missing, hence `Option`.  `filter_by_bssid_prefixes` and the
deduplication in `search_multiple_ssids` treat the rest of the record as an
opaque payload that travels with these two fields. -/
structure Network where
  netid : Option String
  ssid : Option String
deriving DecidableEq

/-- `filter_by_bssid_prefixes` (wigle_api.py, lines 200–231): keep a record
when `network.get('netid', '')` has at least 8 characters and its first 8
characters, uppercased, occur in the uppercased prefix list. -/
def filter_by_bssid_prefixes (networks : List Network) (bssid_prefixes : List String) :
    List Network :=
  networks.filter fun network =>
    let bssid := network.netid.getD ""
    decide (8 ≤ pyLen bssid) &&
      (bssid_prefixes.map pyUpper).contains (pyUpper (pyTake bssid 8))

/-- The deduplication loop of `search_multiple_ssids` (wigle_api.py, lines
361–372).  `seen` is the key set of the insertion-ordered `unique_networks`
dict built so far: a record is emitted when its `netid` is present (`some`),
non-empty (Python truthiness) and not yet seen; records with a missing or
empty `netid` are skipped silently. -/
def dedupByBssid : List Network → List String → List Network
  | [], _ => []
  | network :: rest, seen =>
    match network.netid with
    | none => dedupByBssid rest seen
    | some bssid =>
      if bssid = "" then dedupByBssid rest seen
      else if bssid ∈ seen then dedupByBssid rest seen
      else network :: dedupByBssid rest (bssid :: seen)

/-- The accumulation loop of `search_multiple_ssids` (wigle_api.py, lines
345–356): `all_networks` starts empty and is extended with
`search_by_coordinates(pattern, bounding_box)` for each pattern in order.
The per-pattern search (a remote call) is a parameter. -/
def accumulate_searches (search_by_coordinates : String → List Network)
    (ssid_patterns : List String) : List Network :=
  ssid_patterns.foldl (fun all_networks pattern =>
    all_networks ++ search_by_coordinates pattern) []

/-- `search_multiple_ssids` (wigle_api.py, lines 333–372): accumulate all
per-pattern results in pattern order, then deduplicate by BSSID keeping the
first occurrence. -/
def search_multiple_ssids (search_by_coordinates : String → List Network)
    (ssid_patterns : List String) : List Network :=
  dedupByBssid (accumulate_searches search_by_coordinates ssid_patterns) []

/-! ## The 24-hour soft-TTL boundary cache (osm_boundaries.py) -/

/-- One cached file: the JSON object written by the cache-write sections of
`get_available_countries` (lines 153–166) and `get_admin_divisions` (lines
352–367): a `timestamp` field plus the payload. -/
structure CacheEntry (α : Type) where
  timestamp : ℚ
  payload : α
deriving DecidableEq

/-- The cache-read logic shared by `get_available_countries` (lines 104–119)
and `get_admin_divisions` (lines 246–261).  `store key` is the parsed
content of the cache file for `key` (`none` when the file does not exist or
cannot be parsed); `now` is `time.time()`.  The entry is used exactly when
`cached_data.get('timestamp', 0) > time.time() - 86400`; otherwise the
caller falls through to a fresh remote query (`none` here). -/
def cache_get {α : Type} (store : String → Option (CacheEntry α)) (key : String)
    (now : ℚ) : Option α :=
  match store key with
  | none => none
  | some entry => if now - 86400 < entry.timestamp then some entry.payload else none

/-- The cache-write logic of the same two functions: overwrite the file for
`key` with the payload stamped `time.time()`. -/
def cache_put {α : Type} (store : String → Option (CacheEntry α)) (key : String)
    (payload : α) (now : ℚ) : String → Option (CacheEntry α) :=
  fun k => if k = key then some ⟨now, payload⟩ else store k

/-! ## HTTP-429 retry control flow (osm_boundaries.py / wigle_api.py) -/

/-- One HTTP response as the retry logic discriminates it: `ok` is HTTP 200
with a parsed body, `rateLimited` is HTTP 429, `httpError` is any other
status. -/
inductive HttpResponse (α : Type) where
  | ok (payload : α)
  | rateLimited
  | httpError (status : Nat)
deriving DecidableEq

/-- `query_overpass` (osm_boundaries.py, lines 43–86) as a function of the
sequence of responses the Overpass server returns to the successive
attempts (the head answers the first attempt; each recursive retry consumes
the next response).  HTTP 200 returns the body, any other non-429 status
returns `None`; on HTTP 429 the function sleeps 60 seconds and calls itself
on the same query, consuming the next response.  The empty sequence stands
for a transport error (`requests` exception), which also returns `None`. -/
def query_overpass {α : Type} : List (HttpResponse α) → Option α
  | [] => none
  | HttpResponse.ok payload :: _ => some payload
  | HttpResponse.rateLimited :: rest => query_overpass rest
  | HttpResponse.httpError _ :: _ => none

/-- `make_wigle_request` (wigle_api.py, lines 92–148), same response-sequence
convention as `query_overpass`; `authenticated` is whether the global
`WIGLE_HEADER` is set (checked on every entry, including each retry, and
constant throughout). -/
def make_wigle_request {α : Type} (authenticated : Bool) :
    List (HttpResponse α) → Option α
  | [] => none
  | response :: rest =>
    if authenticated = false then none
    else
      match response with
      | HttpResponse.ok payload => some payload
      | HttpResponse.rateLimited => make_wigle_request authenticated rest
      | HttpResponse.httpError _ => none

/-! ## Administrative-division extraction (osm_boundaries.py) -/

/-- One node of an OSM way geometry: `lon`/`lat` dictionary lookups that may
be missing. -/
structure OSMNode where
  lon : Option ℚ
  lat : Option ℚ
deriving DecidableEq

/-- One member of an OSM relation: its `type` tag and, when present, its
embedded way geometry. -/
structure OSMMember where
  type : String
  geometry : Option (List OSMNode)
deriving DecidableEq

/-- The OSM tags `get_admin_divisions` reads on the US path (missing tags
are `none`). -/
structure OSMTags where
  iso3166_2 : Option String
  ref : Option String
  ref_usps : Option String
  name_en : Option String
  name : Option String
deriving DecidableEq

/-- One element of the Overpass response: numeric id, tags and relation
members. -/
structure OSMElement where
  id : Option Nat
  tags : OSMTags
  members : List OSMMember
deriving DecidableEq

/-- `extract_coordinates_from_geometry` (osm_boundaries.py, lines 171–212),
non-debug run: for each member of type `'way'` carrying a `geometry`,
collect the `(lon, lat)` of every node that has both fields; other members
and incomplete nodes are skipped. -/
def extract_coordinates_from_geometry (members : List OSMMember) : List (ℚ × ℚ) :=
  members.flatMap fun member =>
    if member.type = "way" then
      match member.geometry with
      | some geometry =>
        geometry.filterMap fun node =>
          match node.lon, node.lat with
          | some lon, some lat => some (lon, lat)
          | _, _ => none
      | none => []
    else []

/-- Python `str(element.get('id', ''))`: the decimal rendering of the OSM
numeric id, or the empty string when the id is missing. -/
def pyStrOfId : Option Nat → String
  | none => ""
  | some n => toString n

/-- The division-code derivation of `get_admin_divisions` for the US path
(osm_boundaries.py, lines 313–321): strip the `US-` prefix from the
ISO3166-2 tag when it starts with `US-` (Python `replace` removes every
occurrence), else the first truthy of `ref`, `ref:USPS`, `str(id)`. -/
def admin_code_US (element : OSMElement) : String :=
  let iso_code := element.tags.iso3166_2.getD ""
  if pyStartsWith iso_code "US-" then pyReplace iso_code "US-" ""
  else truthyOr element.tags.ref
    (truthyOr element.tags.ref_usps (pyStrOfId element.id))

/-- The division-name derivation (osm_boundaries.py, line 329):
`tags.get('name:en') or tags.get('name') or admin_code`. -/
def division_name (element : OSMElement) : String :=
  truthyOr element.tags.name_en
    (truthyOr element.tags.name (admin_code_US element))

/-- The stored division record (osm_boundaries.py, lines 339–345). -/
structure Division where
  name : String
  osm_id : Option Nat
  tags : OSMTags
  coordinates : List (ℚ × ℚ)
  admin_level : Nat
deriving DecidableEq

/-- The `Division` value inserted for one element. -/
def mkDivision (admin_level : Nat) (element : OSMElement) : Division :=
  { name := division_name element
    osm_id := element.id
    tags := element.tags
    coordinates := extract_coordinates_from_geometry element.members
    admin_level := admin_level }

/-- Python dict assignment `d[k] = v` on an insertion-ordered dictionary
represented as an association list: overwrite in place when the key exists,
else append. -/
def dictInsert {β : Type} (d : List (String × β)) (k : String) (v : β) :
    List (String × β) :=
  if d.any fun p => p.1 == k then
    d.map fun p => if p.1 == k then (k, v) else p
  else d ++ [(k, v)]

/-- One iteration of the element-processing loop of `get_admin_divisions`
(osm_boundaries.py, lines 305–348): store the division under its derived
code exactly when both the code and the name are truthy (non-empty, the
Python `if admin_code and name` guard at line 333). -/
def admin_step (admin_level : Nat) (divisions : List (String × Division))
    (element : OSMElement) : List (String × Division) :=
  if admin_code_US element ≠ "" ∧ division_name element ≠ "" then
    dictInsert divisions (admin_code_US element) (mkDivision admin_level element)
  else divisions

/-- The element-processing loop of `get_admin_divisions` (osm_boundaries.py,
lines 304–349) applied to the `elements` array of the Overpass response.
Countries other than `'US'` never reach the loop (the `SUPPORTED_COUNTRIES`
allow-list at line 229 and the query-construction guard at line 276 both
return `{}` first). -/
def get_admin_divisions (country_code : String) (admin_level : Nat)
    (elements : List OSMElement) : List (String × Division) :=
  if country_code = "US" then
    elements.foldl (admin_step admin_level) []
  else []

/-! ## Specification predicates for the claims -/

/-- The bounding-box specification of claim C3 for one (non-empty) input:
`calculate_bounding_box` succeeds with west/east exactly the minimum/maximum
longitude and south/north exactly the minimum/maximum latitude; every input
coordinate lies inside the box; and the result is invariant under any
permutation of the input list. -/
def BoundingBoxSpec (coordinates : List (ℚ × ℚ)) : Prop :=
  ∃ w e s n : ℚ,
    calculate_bounding_box coordinates =
      some { north := some n, south := some s, east := some e, west := some w } ∧
    (w ∈ coordinates.map Prod.fst ∧ ∀ x ∈ coordinates.map Prod.fst, w ≤ x) ∧
    (e ∈ coordinates.map Prod.fst ∧ ∀ x ∈ coordinates.map Prod.fst, x ≤ e) ∧
    (s ∈ coordinates.map Prod.snd ∧ ∀ y ∈ coordinates.map Prod.snd, s ≤ y) ∧
    (n ∈ coordinates.map Prod.snd ∧ ∀ y ∈ coordinates.map Prod.snd, y ≤ n) ∧
    (∀ p ∈ coordinates, s ≤ p.2 ∧ p.2 ≤ n ∧ w ≤ p.1 ∧ p.1 ≤ e) ∧
    (∀ coordinates' : List (ℚ × ℚ), coordinates.Perm coordinates' →
      calculate_bounding_box coordinates' = calculate_bounding_box coordinates)

/-- Claim C10's conclusion for a common-longitude input: the computation
succeeds, the box has `east = west`, and `validate_bounding_box` rejects
it. -/
def DegenerateLonSpec (coordinates : List (ℚ × ℚ)) : Prop :=
  ∃ box, calculate_bounding_box coordinates = some box ∧ box.east = box.west ∧
    validate_bounding_box box = false

/-- Claim C10's conclusion for a common-latitude input: the computation
succeeds, the box has `north = south`, and `validate_bounding_box` rejects
it. -/
def DegenerateLatSpec (coordinates : List (ℚ × ℚ)) : Prop :=
  ∃ box, calculate_bounding_box coordinates = some box ∧ box.north = box.south ∧
    validate_bounding_box box = false

/-- Claim C4's conclusion for one search stub, pattern list and non-empty
BSSID: the combined output is a sublist of the concatenation of the
per-pattern results in pattern order, and its records carrying that BSSID
are exactly the first record with that BSSID in the concatenation (so each
BSSID occurs at most once, with the attributes of the earliest pattern's
record). -/
def DedupFirstSpec (search_by_coordinates : String → List Network)
    (ssid_patterns : List String) (bssid : String) : Prop :=
  (search_multiple_ssids search_by_coordinates ssid_patterns).Sublist
      (ssid_patterns.flatMap search_by_coordinates) ∧
  (search_multiple_ssids search_by_coordinates ssid_patterns).filter
      (fun n => decide (n.netid = some bssid)) =
    ((ssid_patterns.flatMap search_by_coordinates).find?
      (fun n => decide (n.netid = some bssid))).toList

/-- Claim C8's conclusion: a stored key is non-empty and is the derived code
of some input element whose code and name are both truthy, with the stored
value built from that element. -/
def AdminCodeSpec (elements : List OSMElement) (admin_level : Nat)
    (key : String) (division : Division) : Prop :=
  key ≠ "" ∧ ∃ element ∈ elements, admin_code_US element ≠ "" ∧
    division_name element ≠ "" ∧ key = admin_code_US element ∧
    division = mkDivision admin_level element

/-! ## Concrete data for the witnesses -/

/-- A concrete search stub for the witnesses: two patterns both return a
record for BSSID `AA:BB:CC:11:22:33` with different SSIDs, and the second
pattern also returns records with missing, empty and short BSSIDs. -/
def searchStub : String → List Network := fun pattern =>
  if pattern = "flock-%" then
    [⟨some "AA:BB:CC:11:22:33", some "flock-1"⟩]
  else
    [⟨some "AA:BB:CC:11:22:33", some "penguin-2"⟩, ⟨none, some "ghost"⟩,
     ⟨some "", some "anon"⟩, ⟨some "DD:EE", some "short"⟩]

/-- A concrete cache state with one entry stamped at time 0. -/
def staleStore : String → Option (CacheEntry Nat) :=
  fun key => if key = "countries.json" then some ⟨0, 42⟩ else none

/-- A concrete Overpass element for the state of Texas. -/
def texasElement : OSMElement :=
  { id := some 114690
    tags := { iso3166_2 := some "US-TX", ref := none, ref_usps := none,
              name_en := none, name := some "Texas" }
    members := [] }

instance : Std.Antisymm (fun a b : ℚ => a ≤ b) :=
  ⟨fun h1 h2 => le_antisymm h1 h2⟩

/-! ## Helper lemmas about `List.min?` / `List.max?` over `ℚ` -/

theorem rat_min?_eq_some_iff {l : List ℚ} {a : ℚ} :
    l.min? = some a ↔ a ∈ l ∧ ∀ b ∈ l, a ≤ b :=
  List.min?_eq_some_iff (fun _ => le_refl _) (fun a b => min_choice a b)
    (fun _ _ _ => le_min_iff)

theorem rat_max?_eq_some_iff {l : List ℚ} {a : ℚ} :
    l.max? = some a ↔ a ∈ l ∧ ∀ b ∈ l, b ≤ a :=
  List.max?_eq_some_iff (fun _ => le_refl _) (fun a b => max_choice a b)
    (fun _ _ _ => max_le_iff)

theorem rat_min?_isSome {l : List ℚ} (h : l ≠ []) : ∃ a, l.min? = some a := by
  cases hm : l.min? with
  | none => exact absurd (List.min?_eq_none_iff.mp hm) h
  | some a => exact ⟨a, rfl⟩

theorem rat_max?_isSome {l : List ℚ} (h : l ≠ []) : ∃ a, l.max? = some a := by
  cases hm : l.max? with
  | none => exact absurd (List.max?_eq_none_iff.mp hm) h
  | some a => exact ⟨a, rfl⟩

theorem rat_min?_perm {l l' : List ℚ} (h : l.Perm l') : l.min? = l'.min? := by
  cases hm : l.min? with
  | none =>
    have : l = [] := List.min?_eq_none_iff.mp hm
    subst this
    have : l' = [] := h.symm.eq_nil
    simp [this]
  | some a =>
    obtain ⟨ha, hb⟩ := rat_min?_eq_some_iff.mp hm
    exact (rat_min?_eq_some_iff.mpr
      ⟨h.mem_iff.mp ha, fun b hbmem => hb b (h.mem_iff.mpr hbmem)⟩).symm

theorem rat_max?_perm {l l' : List ℚ} (h : l.Perm l') : l.max? = l'.max? := by
  cases hm : l.max? with
  | none =>
    have : l = [] := List.max?_eq_none_iff.mp hm
    subst this
    have : l' = [] := h.symm.eq_nil
    simp [this]
  | some a =>
    obtain ⟨ha, hb⟩ := rat_max?_eq_some_iff.mp hm
    exact (rat_max?_eq_some_iff.mpr
      ⟨h.mem_iff.mp ha, fun b hbmem => hb b (h.mem_iff.mpr hbmem)⟩).symm

theorem rat_min?_const {l : List ℚ} {c : ℚ} (hne : l ≠ []) (h : ∀ x ∈ l, x = c) :
    l.min? = some c := by
  cases l with
  | nil => exact absurd rfl hne
  | cons x xs =>
    refine rat_min?_eq_some_iff.mpr ⟨?_, ?_⟩
    · have := h x (List.mem_cons_self x xs)
      rw [← this]; exact List.mem_cons_self x xs
    · intro b hb; rw [h b hb]

theorem rat_max?_const {l : List ℚ} {c : ℚ} (hne : l ≠ []) (h : ∀ x ∈ l, x = c) :
    l.max? = some c := by
  cases l with
  | nil => exact absurd rfl hne
  | cons x xs =>
    refine rat_max?_eq_some_iff.mpr ⟨?_, ?_⟩
    · have := h x (List.mem_cons_self x xs)
      rw [← this]; exact List.mem_cons_self x xs
    · intro b hb; rw [h b hb]

theorem calculate_bounding_box_eq {l : List (ℚ × ℚ)} (h : l ≠ []) :
    calculate_bounding_box l =
      some { north := (l.map Prod.snd).max?, south := (l.map Prod.snd).min?,
             east := (l.map Prod.fst).max?, west := (l.map Prod.fst).min? } := by
  cases l with
  | nil => exact absurd rfl h
  | cons c cs => rfl

/-! ## Claim C3: `calculate_bounding_box` computes exact min/max bounds -/

/-- C3: for every non-empty coordinate list, `calculate_bounding_box` returns
the box of the exact minimum/maximum of the longitudes (west/east) and of
the latitudes (south/north); hence every input point satisfies
`south ≤ lat ≤ north` and `west ≤ lon ≤ east`, and the result is unchanged
under any permutation of the input. -/
theorem C3_calculate_bounding_box_minmax (coordinates : List (ℚ × ℚ))
    (hne : coordinates ≠ []) : BoundingBoxSpec coordinates := by
  have hlons : coordinates.map Prod.fst ≠ [] := by
    simpa using hne
  have hlats : coordinates.map Prod.snd ≠ [] := by
    simpa using hne
  obtain ⟨w, hw⟩ := rat_min?_isSome hlons
  obtain ⟨e, he⟩ := rat_max?_isSome hlons
  obtain ⟨s, hs⟩ := rat_min?_isSome hlats
  obtain ⟨n, hn⟩ := rat_max?_isSome hlats
  have hwspec := rat_min?_eq_some_iff.mp hw
  have hespec := rat_max?_eq_some_iff.mp he
  have hsspec := rat_min?_eq_some_iff.mp hs
  have hnspec := rat_max?_eq_some_iff.mp hn
  refine ⟨w, e, s, n, ?_, hwspec, hespec, hsspec, hnspec, ?_, ?_⟩
  · rw [calculate_bounding_box_eq hne, hw, he, hs, hn]
  · intro p hp
    exact ⟨hsspec.2 p.2 (List.mem_map_of_mem Prod.snd hp),
           hnspec.2 p.2 (List.mem_map_of_mem Prod.snd hp),
           hwspec.2 p.1 (List.mem_map_of_mem Prod.fst hp),
           hespec.2 p.1 (List.mem_map_of_mem Prod.fst hp)⟩
  · intro coordinates' hperm
    have hne' : coordinates' ≠ [] := by
      intro hnil
      rw [hnil] at hperm
      exact hne hperm.eq_nil
    rw [calculate_bounding_box_eq hne, calculate_bounding_box_eq hne']
    rw [rat_min?_perm (hperm.map Prod.fst), rat_max?_perm (hperm.map Prod.fst),
        rat_min?_perm (hperm.map Prod.snd), rat_max?_perm (hperm.map Prod.snd)]

/-- Witness for C3 at the spec's end-to-end example boundary
`[(-97.5, 32.5), (-96.5, 33.5)]`. -/
theorem C3_calculate_bounding_box_minmax_witness :
    ([((-195 : ℚ)/2, 65/2), (-193/2, 67/2)] : List (ℚ × ℚ)) ≠ [] ∧
      BoundingBoxSpec [((-195 : ℚ)/2, 65/2), (-193/2, 67/2)] :=
  ⟨by decide, C3_calculate_bounding_box_minmax _ (by decide)⟩

/-! ## Claim C6: the empty list is the only failing input -/

/-- C6: `calculate_bounding_box` yields no box exactly on the empty
coordinate list. -/
theorem C6_bounding_box_none_iff_empty (coordinates : List (ℚ × ℚ)) :
    calculate_bounding_box coordinates = none ↔ coordinates = [] := by
  cases coordinates with
  | nil => simp [calculate_bounding_box]
  | cons c cs => simp [calculate_bounding_box]

/-! ## Claim C7: `validate_bounding_box` range and extent checks -/

/-- C7: on a box carrying all four keys, `validate_bounding_box` returns
false whenever `north ≤ south` or `east ≤ west`, returns false whenever the
box leaves the valid latitude/longitude ranges, and returns true for every
box strictly inside those ranges with positive extent. -/
theorem C7_validate_bounding_box_ranges (n s e w : ℚ) :
    ((n ≤ s ∨ e ≤ w) →
      validate_bounding_box ⟨some n, some s, some e, some w⟩ = false) ∧
    ((90 < n ∨ s < -90 ∨ 180 < e ∨ w < -180) →
      validate_bounding_box ⟨some n, some s, some e, some w⟩ = false) ∧
    ((-90 < s ∧ s < n ∧ n < 90 ∧ -180 < w ∧ w < e ∧ e < 180) →
      validate_bounding_box ⟨some n, some s, some e, some w⟩ = true) := by
  refine ⟨?_, ?_, ?_⟩
  · intro h
    simp only [validate_bounding_box]
    split_ifs with h1 h2 h3 h4
    · rfl
    · rfl
    · rfl
    · rfl
    · rcases h with h | h
      · exact absurd h h1
      · exact absurd h h2
  · intro h
    simp only [validate_bounding_box]
    split_ifs with h1 h2 h3 h4
    · rfl
    · rfl
    · rfl
    · rfl
    · exfalso
      rcases h with h | h | h | h
      · exact h3 (Or.inl h)
      · exact h3 (Or.inr h)
      · exact h4 (Or.inl h)
      · exact h4 (Or.inr h)
  · intro h
    obtain ⟨hs1, hs2, hn1, hw1, hw2, he1⟩ := h
    simp only [validate_bounding_box]
    split_ifs with h1 h2 h3 h4
    · exfalso; linarith
    · exfalso; linarith
    · rcases h3 with h | h <;> (exfalso; linarith)
    · rcases h4 with h | h <;> (exfalso; linarith)
    · rfl

/-- Witness for C7: a degenerate box, an out-of-range box and a proper box. -/
theorem C7_validate_bounding_box_ranges_witness :
    validate_bounding_box ⟨some 1, some 2, some 3, some 0⟩ = false ∧
    validate_bounding_box ⟨some 91, some 0, some 3, some 0⟩ = false ∧
    validate_bounding_box ⟨some 10, some 0, some 3, some 0⟩ = true :=
  ⟨(C7_validate_bounding_box_ranges 1 2 3 0).1 (Or.inl (by norm_num)),
   (C7_validate_bounding_box_ranges 91 0 3 0).2.1 (Or.inl (by norm_num)),
   (C7_validate_bounding_box_ranges 10 0 3 0).2.2 (by norm_num)⟩

/-! ## Claim C10: degenerate coordinate sets give computable but invalid boxes -/

/-- C10: on a non-empty list whose points all share one longitude (resp. all
share one latitude), `calculate_bounding_box` succeeds with `east = west`
(resp. `north = south`) and `validate_bounding_box` rejects the resulting
box — in particular a successfully computed box need not be valid. -/
theorem C10_degenerate_box_invalid (coordinates : List (ℚ × ℚ))
    (hne : coordinates ≠ []) (c : ℚ) :
    ((∀ p ∈ coordinates, p.1 = c) → DegenerateLonSpec coordinates) ∧
    ((∀ p ∈ coordinates, p.2 = c) → DegenerateLatSpec coordinates) := by
  have hlons : coordinates.map Prod.fst ≠ [] := by simpa using hne
  have hlats : coordinates.map Prod.snd ≠ [] := by simpa using hne
  constructor
  · intro hall
    have hallm : ∀ x ∈ coordinates.map Prod.fst, x = c := by
      intro x hx
      obtain ⟨p, hp, rfl⟩ := List.mem_map.mp hx
      exact hall p hp
    have hmin := rat_min?_const hlons hallm
    have hmax := rat_max?_const hlons hallm
    obtain ⟨s, hs⟩ := rat_min?_isSome hlats
    obtain ⟨n, hn⟩ := rat_max?_isSome hlats
    refine ⟨_, calculate_bounding_box_eq hne, ?_, ?_⟩
    · simp [hmin, hmax]
    · simp only [validate_bounding_box, hmin, hmax, hs, hn]
      split_ifs with h1 h2 h3 h4
      · rfl
      · rfl
      · rfl
      · rfl
      · exact absurd (le_refl c) h2
  · intro hall
    have hallm : ∀ y ∈ coordinates.map Prod.snd, y = c := by
      intro y hy
      obtain ⟨p, hp, rfl⟩ := List.mem_map.mp hy
      exact hall p hp
    have hmin := rat_min?_const hlats hallm
    have hmax := rat_max?_const hlats hallm
    obtain ⟨w, hw⟩ := rat_min?_isSome hlons
    obtain ⟨e, he⟩ := rat_max?_isSome hlons
    refine ⟨_, calculate_bounding_box_eq hne, ?_, ?_⟩
    · simp [hmin, hmax]
    · simp only [validate_bounding_box, hmin, hmax, hw, he]
      split_ifs with h1 h2 h3 h4
      · rfl
      · rfl
      · rfl
      · rfl
      · exact absurd (le_refl c) h1

/-- Witness for C10: two points on the longitude line `lon = 1`. -/
theorem C10_degenerate_box_invalid_witness :
    ([((1 : ℚ), 2), (1, 5)] : List (ℚ × ℚ)) ≠ [] ∧
      DegenerateLonSpec [((1 : ℚ), 2), (1, 5)] :=
  ⟨by decide, (C10_degenerate_box_invalid _ (by decide) 1).1 (by decide)⟩

/-! ## Claim C2: BSSID-prefix filtering -/

/-- C2: `filter_by_bssid_prefixes` is a stable filter (the output is a
sublist of the input, hence in input order), and a record of the input
survives exactly when its `netid` has at least 8 characters and its first
8 characters equal some prefix-list entry up to case. -/
theorem C2_filter_by_bssid_prefixes_spec (networks : List Network)
    (bssid_prefixes : List String) :
    (filter_by_bssid_prefixes networks bssid_prefixes).Sublist networks ∧
    ∀ network, network ∈ filter_by_bssid_prefixes networks bssid_prefixes ↔
      network ∈ networks ∧ 8 ≤ pyLen (network.netid.getD "") ∧
        ∃ p ∈ bssid_prefixes,
          pyUpper (pyTake (network.netid.getD "") 8) = pyUpper p := by
  constructor
  · exact List.filter_sublist networks
  · intro network
    simp only [filter_by_bssid_prefixes, List.mem_filter, Bool.and_eq_true,
      decide_eq_true_eq, List.contains_iff_exists_mem_beq, List.mem_map, beq_iff_eq]
    constructor
    · rintro ⟨hmem, hlen, u, ⟨p, hp, rfl⟩, hu⟩
      exact ⟨hmem, hlen, p, hp, hu⟩
    · rintro ⟨hmem, hlen, p, hp, hpe⟩
      exact ⟨hmem, hlen, pyUpper p, ⟨p, hp, rfl⟩, hpe⟩

/-- Witness for C2: the spec's case-insensitivity example — the prefix
`"AA:BB:CC"` keeps `bssid = "aa:bb:cc:11:22:33"`, while a 5-character
bssid is dropped. -/
theorem C2_filter_by_bssid_prefixes_spec_witness :
    (⟨some "aa:bb:cc:11:22:33", none⟩ : Network) ∈
      filter_by_bssid_prefixes
        [⟨some "aa:bb:cc:11:22:33", none⟩, ⟨some "aa:bb", none⟩] ["AA:BB:CC"] ∧
    ¬ (⟨some "aa:bb", none⟩ : Network) ∈
      filter_by_bssid_prefixes
        [⟨some "aa:bb:cc:11:22:33", none⟩, ⟨some "aa:bb", none⟩] ["AA:BB:CC"] :=
  ⟨((C2_filter_by_bssid_prefixes_spec _ _).2 _).mpr
      ⟨by decide, by decide, "AA:BB:CC", by decide, by decide⟩,
   fun hmem => by
      have h := (((C2_filter_by_bssid_prefixes_spec
        [⟨some "aa:bb:cc:11:22:33", none⟩, ⟨some "aa:bb", none⟩]
        ["AA:BB:CC"]).2 ⟨some "aa:bb", none⟩).mp hmem).2.1
      exact absurd h (by decide)⟩

/-! ## Claims C4 and C9: accumulation and BSSID deduplication -/

theorem accumulate_searches_foldl (search_by_coordinates : String → List Network) :
    ∀ (ssid_patterns : List String) (acc : List Network),
      ssid_patterns.foldl (fun all_networks pattern =>
        all_networks ++ search_by_coordinates pattern) acc =
      acc ++ ssid_patterns.flatMap search_by_coordinates := by
  intro ssid_patterns
  induction ssid_patterns with
  | nil => intro acc; simp
  | cons p ps ih => intro acc; simp [ih, List.append_assoc]

theorem dedupByBssid_cons_none {m : Network} {rest : List Network}
    {seen : List String} (h : m.netid = none) :
    dedupByBssid (m :: rest) seen = dedupByBssid rest seen := by
  simp [dedupByBssid, h]

theorem dedupByBssid_cons_empty {m : Network} {rest : List Network}
    {seen : List String} (h : m.netid = some "") :
    dedupByBssid (m :: rest) seen = dedupByBssid rest seen := by
  simp [dedupByBssid, h]

theorem dedupByBssid_cons_seen {m : Network} {rest : List Network}
    {seen : List String} {b : String} (h : m.netid = some b) (hb : b ≠ "")
    (hs : b ∈ seen) :
    dedupByBssid (m :: rest) seen = dedupByBssid rest seen := by
  simp [dedupByBssid, h, hb, hs]

theorem dedupByBssid_cons_new {m : Network} {rest : List Network}
    {seen : List String} {b : String} (h : m.netid = some b) (hb : b ≠ "")
    (hs : b ∉ seen) :
    dedupByBssid (m :: rest) seen = m :: dedupByBssid rest (b :: seen) := by
  simp [dedupByBssid, h, hb, hs]

theorem dedupByBssid_sublist : ∀ (L : List Network) (seen : List String),
    (dedupByBssid L seen).Sublist L := by
  intro L
  induction L with
  | nil => intro seen; simp [dedupByBssid]
  | cons m rest ih =>
    intro seen
    cases hnet : m.netid with
    | none =>
      rw [dedupByBssid_cons_none hnet]
      exact (ih seen).cons m
    | some b =>
      by_cases hb' : b = ""
      · subst hb'
        rw [dedupByBssid_cons_empty hnet]
        exact (ih seen).cons m
      · by_cases hseen : b ∈ seen
        · rw [dedupByBssid_cons_seen hnet hb' hseen]
          exact (ih seen).cons m
        · rw [dedupByBssid_cons_new hnet hb' hseen]
          exact (ih (b :: seen)).cons₂ m

theorem dedupByBssid_filter_eq (bssid : String) (hb : bssid ≠ "") :
    ∀ (L : List Network) (seen : List String),
      (dedupByBssid L seen).filter (fun n => decide (n.netid = some bssid)) =
        if bssid ∈ seen then []
        else (L.find? fun n => decide (n.netid = some bssid)).toList := by
  intro L
  induction L with
  | nil =>
    intro seen
    by_cases h : bssid ∈ seen <;> simp [dedupByBssid, h]
  | cons m rest ih =>
    intro seen
    cases hnet : m.netid with
    | none =>
      rw [dedupByBssid_cons_none hnet, ih seen,
        List.find?_cons_of_neg _ (by simp [hnet])]
    | some b =>
      by_cases hb' : b = ""
      · subst hb'
        rw [dedupByBssid_cons_empty hnet, ih seen,
          List.find?_cons_of_neg _ (by simp [hnet, Ne.symm hb])]
      · by_cases hbb : b = bssid
        · subst hbb
          by_cases hseen : b ∈ seen
          · rw [dedupByBssid_cons_seen hnet hb' hseen, ih seen,
              if_pos hseen, if_pos hseen]
          · rw [dedupByBssid_cons_new hnet hb' hseen,
              List.filter_cons_of_pos (by simp [hnet]), ih (b :: seen),
              if_pos (List.mem_cons_self b seen), if_neg hseen,
              List.find?_cons_of_pos _ (by simp [hnet])]
            rfl
        · by_cases hseen : b ∈ seen
          · rw [dedupByBssid_cons_seen hnet hb' hseen, ih seen,
              List.find?_cons_of_neg _ (by simp [hnet, hbb])]
          · rw [dedupByBssid_cons_new hnet hb' hseen,
              List.filter_cons_of_neg (by simp [hnet, hbb]), ih (b :: seen),
              List.find?_cons_of_neg _ (by simp [hnet, hbb])]
            have hmem : (bssid ∈ b :: seen) ↔ bssid ∈ seen := by
              simp [List.mem_cons, Ne.symm hbb]
            by_cases hsn : bssid ∈ seen
            · rw [if_pos (hmem.mpr hsn), if_pos hsn]
            · rw [if_neg (fun hc => hsn (hmem.mp hc)), if_neg hsn]

/-- C4: `search_multiple_ssids` deduplicates the concatenated per-pattern
results by BSSID, keeping for each BSSID exactly the first occurrence in
pattern-iteration order. -/
theorem C4_search_many_dedup_first (search_by_coordinates : String → List Network)
    (ssid_patterns : List String) (bssid : String) (hb : bssid ≠ "") :
    DedupFirstSpec search_by_coordinates ssid_patterns bssid := by
  have hacc : accumulate_searches search_by_coordinates ssid_patterns =
      ssid_patterns.flatMap search_by_coordinates := by
    simpa using accumulate_searches_foldl search_by_coordinates ssid_patterns []
  constructor
  · show (dedupByBssid (accumulate_searches search_by_coordinates ssid_patterns)
      []).Sublist _
    rw [hacc]
    exact dedupByBssid_sublist _ []
  · show (dedupByBssid (accumulate_searches search_by_coordinates ssid_patterns)
        []).filter _ = _
    rw [dedupByBssid_filter_eq bssid hb
      (accumulate_searches search_by_coordinates ssid_patterns) [],
      if_neg (List.not_mem_nil bssid), hacc]

/-- Witness for C4 on the two-pattern stub. -/
theorem C4_search_many_dedup_first_witness :
    "AA:BB:CC:11:22:33" ≠ "" ∧
      DedupFirstSpec searchStub ["flock-%", "penguin-%"] "AA:BB:CC:11:22:33" :=
  ⟨by decide, C4_search_many_dedup_first searchStub ["flock-%", "penguin-%"]
    "AA:BB:CC:11:22:33" (by decide)⟩

theorem dedupByBssid_mem_netid :
    ∀ (L : List Network) (seen : List String) (network : Network),
      network ∈ dedupByBssid L seen → ∃ s, network.netid = some s ∧ s ≠ "" := by
  intro L
  induction L with
  | nil => intro seen network h; simp [dedupByBssid] at h
  | cons m rest ih =>
    intro seen network h
    cases hnet : m.netid with
    | none =>
      rw [dedupByBssid_cons_none hnet] at h
      exact ih seen network h
    | some b =>
      by_cases hb' : b = ""
      · subst hb'
        rw [dedupByBssid_cons_empty hnet] at h
        exact ih seen network h
      · by_cases hseen : b ∈ seen
        · rw [dedupByBssid_cons_seen hnet hb' hseen] at h
          exact ih seen network h
        · rw [dedupByBssid_cons_new hnet hb' hseen] at h
          rcases List.mem_cons.mp h with rfl | hmem
          · exact ⟨b, hnet, hb'⟩
          · exact ih (b :: seen) network hmem

/-- C9: a record with a missing or empty `netid` never reaches the output of
`search_multiple_ssids` (it is dropped by the deduplication even when it is
no duplicate), and every output record has a non-empty `netid`. -/
theorem C9_output_bssid_nonempty (search_by_coordinates : String → List Network)
    (ssid_patterns : List String) (network : Network) :
    ((network.netid = none ∨ network.netid = some "") →
      network ∉ search_multiple_ssids search_by_coordinates ssid_patterns) ∧
    (network ∈ search_multiple_ssids search_by_coordinates ssid_patterns →
      ∃ s, network.netid = some s ∧ s ≠ "") := by
  have main := dedupByBssid_mem_netid
    (accumulate_searches search_by_coordinates ssid_patterns) [] network
  constructor
  · intro hbad hmem
    obtain ⟨s, hs, hsne⟩ := main hmem
    rcases hbad with h | h
    · rw [h] at hs
      exact Option.noConfusion hs
    · rw [h] at hs
      exact hsne (Option.some.inj hs).symm
  · exact main

/-- Witness for C9: on the stub, the record with a missing `netid` that the
second pattern returned is absent from the output, while the surviving
record's `netid` is non-empty. -/
theorem C9_output_bssid_nonempty_witness :
    ((⟨none, some "ghost"⟩ : Network) ∉
      search_multiple_ssids searchStub ["penguin-%"]) ∧
    ∃ s, (⟨some "AA:BB:CC:11:22:33", some "penguin-2"⟩ : Network).netid =
      some s ∧ s ≠ "" :=
  ⟨(C9_output_bssid_nonempty searchStub ["penguin-%"] ⟨none, some "ghost"⟩).1
      (Or.inl rfl),
   (C9_output_bssid_nonempty searchStub ["penguin-%"]
      ⟨some "AA:BB:CC:11:22:33", some "penguin-2"⟩).2 (by decide)⟩

/-! ## Claim C5: cache round-trip and 24-hour soft TTL -/

/-- C5: a `cache_put` followed immediately by a `cache_get` for the same key
returns the payload unchanged; and when the stored timestamp is more than
24 hours (86400 seconds) before the current time, `cache_get` returns
absent even though the entry (the file on disk) still exists. -/
theorem C5_cache_roundtrip_and_ttl {α : Type} (store : String → Option (CacheEntry α))
    (key : String) (payload : α) (now : ℚ) :
    cache_get (cache_put store key payload now) key now = some payload ∧
    (∀ entry : CacheEntry α, store key = some entry →
      86400 < now - entry.timestamp →
      store key ≠ none ∧ cache_get store key now = none) := by
  constructor
  · have h1 : cache_put store key payload now key = some ⟨now, payload⟩ := by
      simp [cache_put]
    simp only [cache_get, h1]
    rw [if_pos (by linarith)]
  · intro entry hst hold
    refine ⟨?_, ?_⟩
    · rw [hst]
      exact fun hc => Option.noConfusion hc
    · simp only [cache_get, hst]
      rw [if_neg (not_lt.mpr (by linarith))]

/-- Witness for C5 on the concrete stale store: a fresh put/get round-trip,
and the 100000-second-old entry for `countries.json` is treated as absent
although it is still stored. -/
theorem C5_cache_roundtrip_and_ttl_witness :
    cache_get (cache_put staleStore "US_admin_4.json" 7 100000) "US_admin_4.json"
      100000 = some 7 ∧
    (staleStore "countries.json" ≠ none ∧
      cache_get staleStore "countries.json" 100000 = none) :=
  ⟨(C5_cache_roundtrip_and_ttl staleStore "US_admin_4.json" 7 100000).1,
   (C5_cache_roundtrip_and_ttl staleStore "countries.json" 7 100000).2
     ⟨0, 42⟩ (by decide) (by norm_num)⟩

/-! ## Claim C8: stored division codes are non-empty and derived -/

theorem dictInsert_mem {β : Type} {d : List (String × β)} {k : String} {v : β}
    {pair : String × β} (h : pair ∈ dictInsert d k v) :
    pair ∈ d ∨ pair = (k, v) := by
  unfold dictInsert at h
  split_ifs at h with hany
  · obtain ⟨p, hp, hpe⟩ := List.mem_map.mp h
    by_cases hpk : p.1 == k
    · rw [if_pos hpk] at hpe
      exact Or.inr hpe.symm
    · rw [if_neg hpk] at hpe
      exact Or.inl (hpe ▸ hp)
  · rcases List.mem_append.mp h with h1 | h1
    · exact Or.inl h1
    · exact Or.inr (List.mem_singleton.mp h1)

theorem get_admin_divisions_mem_aux (admin_level : Nat) :
    ∀ (elements : List OSMElement) (acc : List (String × Division))
      (key : String) (division : Division),
      (key, division) ∈ elements.foldl (admin_step admin_level) acc →
      (key, division) ∈ acc ∨ ∃ element ∈ elements,
        admin_code_US element ≠ "" ∧ division_name element ≠ "" ∧
        key = admin_code_US element ∧ division = mkDivision admin_level element := by
  intro elements
  induction elements with
  | nil => intro acc key division h; exact Or.inl h
  | cons e es ih =>
    intro acc key division h
    rw [List.foldl_cons] at h
    rcases ih _ key division h with hacc | hex
    · unfold admin_step at hacc
      split_ifs at hacc with hc
      · rcases dictInsert_mem hacc with h1 | h1
        · exact Or.inl h1
        · rw [Prod.ext_iff] at h1
          exact Or.inr ⟨e, List.mem_cons_self e es, hc.1, hc.2, h1.1, h1.2⟩
      · exact Or.inl hacc
    · obtain ⟨e', he', hrest⟩ := hex
      exact Or.inr ⟨e', List.mem_cons_of_mem e he', hrest⟩

/-- C8: every entry of the mapping built by `get_admin_divisions` has a
non-empty key, and that key is the code derived (ISO3166-2 with the `US-`
prefix stripped, else `ref`, else `ref:USPS`, else the numeric id) of some
input element whose code and name are both non-empty — elements for which
every fallback is empty are not stored. -/
theorem C8_admin_division_code_nonempty (country_code : String) (admin_level : Nat)
    (elements : List OSMElement) (key : String) (division : Division)
    (hmem : (key, division) ∈ get_admin_divisions country_code admin_level elements) :
    AdminCodeSpec elements admin_level key division := by
  unfold get_admin_divisions at hmem
  split_ifs at hmem with hcc
  · rcases get_admin_divisions_mem_aux admin_level elements [] key division hmem
      with h | hex
    · simp at h
    · obtain ⟨e, he, hc, hn, hk, hd⟩ := hex
      refine ⟨?_, e, he, hc, hn, hk, hd⟩
      rw [hk]
      exact hc
  · simp at hmem

/-- Witness for C8 on a concrete Texas element (`ISO3166-2 = US-TX`). -/
theorem C8_admin_division_code_nonempty_witness :
    ("TX", mkDivision 4 texasElement) ∈ get_admin_divisions "US" 4 [texasElement] ∧
      AdminCodeSpec [texasElement] 4 "TX" (mkDivision 4 texasElement) :=
  ⟨by decide, C8_admin_division_code_nonempty "US" 4 [texasElement] "TX"
    (mkDivision 4 texasElement) (by decide)⟩

/-! ## Claim C1: HTTP-429 handling retries more than once -/

/-- C1 (behavior of the code at the diverging input): with the response
sequence 429, 429, 200 both `query_overpass` and `make_wigle_request` sleep
and retry again after the second consecutive 429 and return the third
response's payload — instead of surfacing the second 429 as a failure
(`none`) after exactly one retry, as the spec and the code's own
`# Retry once` comments (osm_boundaries.py line 73, wigle_api.py line 139)
prescribe.  The self-recursion carries no attempt counter, so consecutive
429 responses are retried without bound. -/
theorem C1_second_429_is_retried_again :
    query_overpass
      [HttpResponse.rateLimited, HttpResponse.rateLimited, HttpResponse.ok 7] =
      some 7 ∧
    make_wigle_request true
      [HttpResponse.rateLimited, HttpResponse.rateLimited, HttpResponse.ok 7] =
      some 7 ∧
    query_overpass
      [HttpResponse.rateLimited, HttpResponse.rateLimited,
       HttpResponse.ok 7] ≠ (none : Option Nat) :=
  ⟨rfl, rfl, fun h => Option.noConfusion h⟩
